import Mathlib

/-!
Verification model of the usbrelay program.

The device protocol layer is embedded shallowly:
* the HID transport is modelled as data carried by `HidDevice` / `DeviceInfo`
  (the feature-report response a device would deliver, and the byte count its
  `write` would report);
* product strings are `List Char`, byte buffers are `List Nat` (each entry a
  byte value), decoded text is the list of decoded code points;
* each `bail!`/error site of the source becomes one constructor of
  `RelayError`, and `RelayError.kind` classifies those constructors by the
  error taxonomy used in the design document.
-/

/-- Vendor id of the relay boards (`USB_RELAY_VID` in the source). -/
def USB_RELAY_VID : Nat := 0x16c0

/-- Product id of the relay boards (`USB_RELAY_PID` in the source). -/
def USB_RELAY_PID : Nat := 0x05df

/-- `SERIAL_NUMBER_SIZE` in the source. -/
def SERIAL_NUMBER_SIZE : Nat := 5

/-- `UsbRelayState` from the source: two-valued relay state. -/
inductive UsbRelayState where
  | On
  | Off
deriving DecidableEq

/-- `UsbRelayCommand` from the source: the opcode vocabulary. -/
inductive UsbRelayCommand where
  | ReadFeatures
  | SetSerialNumber
  | TurnOff
  | TurnOn
deriving DecidableEq

/-- The `u8` representation of each opcode (the `EnumRepr` values). -/
def UsbRelayCommand.toByte : UsbRelayCommand → Nat
  | .ReadFeatures => 0x01
  | .SetSerialNumber => 0xfa
  | .TurnOff => 0xfd
  | .TurnOn => 0xff

/-- One constructor per error site of the source (`bail!` sites, `?`
propagations of transport, parse and UTF-8 failures, and the CLI-level
selection errors of `set_relay_state` in `main.rs`). -/
inductive RelayError where
  /-- `.context("Can not read product string")` on a missing product string. -/
  | productStringMissing
  /-- `bail!("Product \x7bproduct\x7d unsupported")`. -/
  | productUnsupported (product : List Char)
  /-- failure of `relay_count.parse::<usize>()`. -/
  | parseIntError
  /-- `bail!("Up to 8 relays supported")`. -/
  | tooManyRelays
  /-- transport failures: `HidApi` calls, `open_device`, `get_feature_report`
  or `write` returning an error. -/
  | hidError
  /-- `bail!("Can not read feature report")` on a size mismatch. -/
  | featureReportSize
  /-- failure of `String::from_utf8` on the serial-number bytes. -/
  | fromUtf8Error
  /-- `bail!("Invalid relay index ...")`, carrying the offending index, the
  board serial number and the board relay count, as the message does. -/
  | invalidRelayIndex (index : Nat) (serial : List Nat) (count : Nat)
  /-- `bail!("Not all bytes has been written to relay")`. -/
  | writeSize
  /-- `bail!("No such relay")` in `main.rs`. -/
  | noSuchRelay
  /-- `bail!("More than one relay with \x7bserial_number\x7d connected")`. -/
  | duplicateSerial
  /-- `.context("Available relays list empty")` (unreachable guard). -/
  | emptyRelayList
deriving DecidableEq

/-- The error taxonomy of the design document. -/
inductive ErrorKind where
  | transport
  | unsupportedProduct
  | parse
  | protocol
  | encoding
  | indexOutOfRange
  | notFound
  | ambiguousIdentity
  | internal
deriving DecidableEq

/-- Classify each concrete error site into the design document's taxonomy. -/
def RelayError.kind : RelayError → ErrorKind
  | .productStringMissing => .transport
  | .productUnsupported _ => .unsupportedProduct
  | .parseIntError => .parse
  | .tooManyRelays => .unsupportedProduct
  | .hidError => .transport
  | .featureReportSize => .protocol
  | .fromUtf8Error => .encoding
  | .invalidRelayIndex _ _ _ => .indexOutOfRange
  | .writeSize => .protocol
  | .noSuchRelay => .notFound
  | .duplicateSerial => .ambiguousIdentity
  | .emptyRelayList => .internal

/-- The error kind of a computation's outcome, `none` on success. -/
def errKindOf {α : Type} : Except RelayError α → Option ErrorKind
  | .error e => some e.kind
  | .ok _ => none

/-- Model of an opened `HidDevice`: the response behaviour of the physical
device. `featureReport` is what `get_feature_report` would deliver (`none` =
transport error, otherwise the reported byte count together with the buffer
contents after the call); `writeResult` is what `write` would report
(`none` = transport error, otherwise the byte count written). -/
structure HidDevice where
  featureReport : Option (Nat × List Nat)
  writeResult : Option Nat
deriving DecidableEq

/-- Model of one entry of `hid_api.device_list()`: identity, the product
descriptor string (`none` when unreadable) and the outcome of
`open_device` (`none` = transport error). -/
structure DeviceInfo where
  vendor_id : Nat
  product_id : Nat
  product_string : Option (List Char)
  openResult : Option HidDevice
deriving DecidableEq

/-- `UsbRelayBoard` from the source. The serial number is the decoded text,
as a list of code points. -/
structure UsbRelayBoard where
  hid_device : HidDevice
  serial_number : List Nat
  relay_states : List UsbRelayState
deriving DecidableEq

/-- A UTF-8 continuation byte (`0x80..=0xBF`). -/
def isCont (b : Nat) : Bool := 0x80 ≤ b && b ≤ 0xbf

/-- UTF-8 decoding as performed by `String::from_utf8`: `none` on invalid
input (overlong forms, surrogates and out-of-range code points rejected),
otherwise the list of decoded code points. -/
def utf8Decode : List Nat → Option (List Nat)
  | [] => some []
  | b0 :: rest =>
    if b0 ≤ 0x7f then
      (utf8Decode rest).map (fun cs => b0 :: cs)
    else if b0 ≤ 0xc1 then none
    else if b0 ≤ 0xdf then
      match rest with
      | b1 :: r =>
        if isCont b1 then
          (utf8Decode r).map (fun cs => ((b0 - 0xc0) <<< 6 ||| (b1 - 0x80)) :: cs)
        else none
      | [] => none
    else if b0 ≤ 0xef then
      match rest with
      | b1 :: b2 :: r =>
        if (if b0 = 0xe0 then 0xa0 else 0x80) ≤ b1 &&
            b1 ≤ (if b0 = 0xed then 0x9f else 0xbf) && isCont b2 then
          (utf8Decode r).map
            (fun cs => ((b0 - 0xe0) <<< 12 ||| (b1 - 0x80) <<< 6 ||| (b2 - 0x80)) :: cs)
        else none
      | _ => none
    else if b0 ≤ 0xf4 then
      match rest with
      | b1 :: b2 :: b3 :: r =>
        if (if b0 = 0xf0 then 0x90 else 0x80) ≤ b1 &&
            b1 ≤ (if b0 = 0xf4 then 0x8f else 0xbf) && isCont b2 && isCont b3 then
          (utf8Decode r).map
            (fun cs => ((b0 - 0xf0) <<< 18 ||| (b1 - 0x80) <<< 12 |||
              (b2 - 0x80) <<< 6 ||| (b3 - 0x80)) :: cs)
        else none
      | _ => none
    else none

/-- `usize::from_str` as used by `relay_count.parse::<usize>()`: an optional
leading `+` sign, then one or more ASCII digits, value below `2 ^ 64`. -/
def parseUsize (s : List Char) : Option Nat :=
  let digits := match s with
    | '+' :: r => r
    | _ => s
  if digits.isEmpty then none
  else if digits.all Char.isDigit then
    let n := digits.foldl (fun a c => a * 10 + (c.toNat - 48)) 0
    if n < 2 ^ 64 then some n else none
  else none

/-- Fuel-driven loop of `str::trim_start_matches`: while the (nonempty)
pattern is a prefix, drop it. Each round removes at least one character, so
any fuel above the length of `s` computes the loop's fixpoint
(`trimStartMatches_spec` below certifies the recurrence). -/
def trimAux : Nat → List Char → List Char → List Char
  | 0, _, s => s
  | fuel + 1, pat, s =>
    if pat ≠ [] ∧ pat.isPrefixOf s then trimAux fuel pat (s.drop pat.length) else s

/-- `str::trim_start_matches`: repeatedly remove the pattern from the front
while it is a prefix. -/
def trimStartMatches (pat s : List Char) : List Char :=
  trimAux (s.length + 1) pat s

/-- The literal product-string marker `"USBRelay"`. -/
def usbRelayTag : List Char := ['U', 'S', 'B', 'R', 'e', 'l', 'a', 'y']

/-- `UsbRelayBoard::read_features`: request a feature report, insist on a
9-byte response, decode bytes `[0..5)` as the UTF-8 serial number and take
byte `[7]` as the state bitmap. -/
def read_features (hid_device : HidDevice) : Except RelayError (List Nat × Nat) :=
  match hid_device.featureReport with
  | none => .error .hidError
  | some (rb, buf) =>
    if rb ≠ 9 then .error .featureReportSize
    else
      match utf8Decode (buf.take SERIAL_NUMBER_SIZE) with
      | none => .error .fromUtf8Error
      | some serial_number => .ok (serial_number, buf.getD 7 0)

/-- The bitmap-decoding loop of `find_relays`: relay `index` is `On` iff
`states & (0x01 << index) > 0`. -/
def decodeStates (states : Nat) (relay_count : Nat) : List UsbRelayState :=
  (List.range relay_count).map
    (fun index => if states &&& (0x01 <<< index) > 0 then .On else .Off)

/-- The body of the `find_relays` loop for one filtered device: validate the
product string, parse the relay count, open the device, read its features
and build the board. -/
def processDevice (relay_info : DeviceInfo) : Except RelayError UsbRelayBoard :=
  match relay_info.product_string with
  | none => .error .productStringMissing
  | some product =>
    if usbRelayTag.isPrefixOf product then
      match parseUsize (trimStartMatches usbRelayTag product) with
      | none => .error .parseIntError
      | some relay_count =>
        if relay_count > 8 then .error .tooManyRelays
        else
          match relay_info.openResult with
          | none => .error .hidError
          | some hid_device =>
            match read_features hid_device with
            | .error e => .error e
            | .ok (serial_number, states) =>
              .ok { hid_device := hid_device,
                    serial_number := serial_number,
                    relay_states := decodeStates states relay_count }
    else .error (.productUnsupported product)

/-- The `for` loop of `find_relays`: process devices in order, aborting the
whole call on the first failing device. -/
def collectRelays : List DeviceInfo → Except RelayError (List UsbRelayBoard)
  | [] => .ok []
  | d :: ds =>
    match processDevice d with
    | .error e => .error e
    | .ok b =>
      match collectRelays ds with
      | .error e => .error e
      | .ok bs => .ok (b :: bs)

/-- `UsbRelayBoard::find_relays`, taking the enumerated device list as the
transport environment: filter on the fixed vendor/product identity, then
process each match in order. -/
def find_relays (devices : List DeviceInfo) : Except RelayError (List UsbRelayBoard) :=
  collectRelays (devices.filter
    (fun d => d.vendor_id == USB_RELAY_VID && d.product_id == USB_RELAY_PID))

/-- The 9-byte output buffer built by `set_state`: `buf[1]` the opcode for
the desired state, `buf[2] = relay_index + 1`, all other bytes zero. -/
def mkSetBuf (state : UsbRelayState) (relay_index : Nat) : List Nat :=
  let command := match state with
    | UsbRelayState.On => UsbRelayCommand.TurnOn
    | UsbRelayState.Off => UsbRelayCommand.TurnOff
  [0, command.toByte, relay_index + 1, 0, 0, 0, 0, 0, 0]

/-- Outcome of a `set_state` call: the post-call board (the state of
`&mut self` when the call returns), the error if any, and the trace of
buffers handed to the transport's `write`. -/
structure SetStateOut where
  board : UsbRelayBoard
  error : Option RelayError
  writes : List (List Nat)
deriving DecidableEq

/-- `UsbRelayBoard::set_state`: bounds-check the index, build the command
buffer, write it once, insist on 9 bytes written, then update the in-memory
state. -/
def set_state (self : UsbRelayBoard) (relay_index : Nat) (state : UsbRelayState) :
    SetStateOut :=
  if relay_index ≥ self.relay_states.length then
    { board := self,
      error := some (.invalidRelayIndex relay_index self.serial_number
        self.relay_states.length),
      writes := [] }
  else
    let buf := mkSetBuf state relay_index
    match self.hid_device.writeResult with
    | none => { board := self, error := some .hidError, writes := [buf] }
    | some wb =>
      if wb ≠ buf.length then
        { board := self, error := some .writeSize, writes := [buf] }
      else
        { board := { self with relay_states := self.relay_states.set relay_index state },
          error := none,
          writes := [buf] }

/-- The board-selection part of `set_relay_state` in `main.rs` (lines 81-94):
filter the discovered boards on exact serial-number equality, fail on zero
or multiple matches, return the unique match. -/
def selectRelay (relays : List UsbRelayBoard) (serial_number : List Nat) :
    Except RelayError UsbRelayBoard :=
  let matching := relays.filter (fun r => r.serial_number == serial_number)
  if matching.isEmpty then .error .noSuchRelay
  else if matching.length > 1 then .error .duplicateSerial
  else
    match matching.head? with
    | some relay => .ok relay
    | none => .error .emptyRelayList

/-- `b` with the feature-report behaviour of its device replaced: used to
state that `set_state` never reads the feature-report channel. -/
def withFeature (b : UsbRelayBoard) (fr : Option (Nat × List Nat)) : UsbRelayBoard :=
  { b with hid_device := { b.hid_device with featureReport := fr } }

/-- A well-behaved test device: matching identity, product string
`"USBRelay" ++ [digit n]`, opening succeeds, the feature report is the
serial `"12345"` with state byte `s`, and writes report 9 bytes. -/
def mkDevice (n s : Nat) : DeviceInfo :=
  { vendor_id := 0x16c0, product_id := 0x05df,
    product_string := some (usbRelayTag ++ [Char.ofNat (48 + n)]),
    openResult := some { featureReport := some (9, [49, 50, 51, 52, 53, 0, 0, s, 0]),
                         writeResult := some 9 } }

/-- The board `find_relays` builds from `mkDevice n s`. -/
def mkBoard (n s : Nat) : UsbRelayBoard :=
  { hid_device := { featureReport := some (9, [49, 50, 51, 52, 53, 0, 0, s, 0]),
                    writeResult := some 9 },
    serial_number := [49, 50, 51, 52, 53],
    relay_states := decodeStates s n }

/-- A well-behaved test device with an arbitrary product string. -/
def mkDeviceP (p : List Char) : DeviceInfo :=
  { vendor_id := 0x16c0, product_id := 0x05df,
    product_string := some p,
    openResult := some { featureReport := some (9, [49, 50, 51, 52, 53, 0, 0, 5, 0]),
                         writeResult := some 9 } }

/-- The product string `"USBRelayUSBRelay4"`: its suffix after one
occurrence of the marker is not numeric, yet `trim_start_matches` removes
the marker twice. -/
def dupProduct : List Char := usbRelayTag ++ usbRelayTag ++ ['4']

/-- A board whose transport reports a 3-byte (short) write. -/
def shortWriteBoard : UsbRelayBoard :=
  { hid_device := { featureReport := none, writeResult := some 3 },
    serial_number := [49, 50, 51, 52, 53],
    relay_states := [.Off, .Off] }

/-- A board whose transport write errors out. -/
def deadWriteBoard : UsbRelayBoard :=
  { hid_device := { featureReport := none, writeResult := none },
    serial_number := [49, 50, 51, 52, 53],
    relay_states := [.Off, .Off] }

/-! ### Helper lemmas -/

lemma trimAux_fuel (pat : List Char) (f1 : Nat) :
    ∀ s f2, s.length < f1 → s.length < f2 → trimAux f1 pat s = trimAux f2 pat s := by
  induction f1 with
  | zero => intro s f2 h1 _; omega
  | succ f ih =>
    intro s f2 h1 h2
    obtain ⟨g, rfl⟩ : ∃ g, f2 = g + 1 := ⟨f2 - 1, by omega⟩
    by_cases hc : pat ≠ [] ∧ pat.isPrefixOf s
    · have hps : pat.length ≤ s.length := (List.isPrefixOf_iff_prefix.mp hc.2).length_le
      have hpos : 0 < pat.length := List.length_pos.mpr hc.1
      simp only [trimAux, if_pos hc]
      have hd := List.length_drop pat.length s
      exact ih _ g (by omega) (by omega)
    · simp only [trimAux, if_neg hc]

/-- The fuel-driven `trimStartMatches` satisfies the recurrence of
`str::trim_start_matches`: while the nonempty pattern is a prefix, drop it
and continue. -/
lemma trimStartMatches_spec (pat s : List Char) :
    trimStartMatches pat s =
      if pat ≠ [] ∧ pat.isPrefixOf s then trimStartMatches pat (s.drop pat.length) else s := by
  by_cases hc : pat ≠ [] ∧ pat.isPrefixOf s
  · have hps : pat.length ≤ s.length := (List.isPrefixOf_iff_prefix.mp hc.2).length_le
    have hpos : 0 < pat.length := List.length_pos.mpr hc.1
    simp only [trimStartMatches, trimAux, if_pos hc]
    have hd := List.length_drop pat.length s
    exact trimAux_fuel pat s.length (s.drop pat.length)
      ((s.drop pat.length).length + 1) (by omega) (by omega)
  · simp only [trimStartMatches, trimAux, if_neg hc]

lemma findRelays_mkDevice (n s : Nat) (hn : n ≤ 8) :
    find_relays [mkDevice n s] = .ok [mkBoard n s] := by
  interval_cases n <;> rfl

lemma decodeStates_length (s n : Nat) : (decodeStates s n).length = n := by
  simp [decodeStates]

lemma decodeStates_getD (s n i : Nat) (h : i < n) :
    ((decodeStates s n).getD i .Off = .On) ↔ s.testBit i = true := by
  rw [decodeStates, List.getD_eq_getElem?_getD, List.getElem?_map,
    List.getElem?_range h]
  have h2 := Nat.and_two_pow s i
  cases hb : s.testBit i <;>
    simp [hb, Nat.one_shiftLeft, h2, Nat.two_pow_pos]

lemma decodeStates_zero (n : Nat) : decodeStates 0 n = List.replicate n .Off := by
  rw [List.eq_replicate_iff]
  refine ⟨decodeStates_length 0 n, ?_⟩
  intro b hb
  simp only [decodeStates, List.mem_map, List.mem_range] at hb
  obtain ⟨i, _, rfl⟩ := hb
  simp [Nat.zero_and]

lemma decodeStates_all_on (n : Nat) :
    decodeStates (2 ^ n - 1) n = List.replicate n .On := by
  rw [List.eq_replicate_iff]
  refine ⟨decodeStates_length _ n, ?_⟩
  intro b hb
  simp only [decodeStates, List.mem_map, List.mem_range] at hb
  obtain ⟨i, hi, rfl⟩ := hb
  have h2 := Nat.and_two_pow (2 ^ n - 1) i
  have h3 : (2 ^ n - 1).testBit i = true := by
    rw [Nat.testBit_two_pow_sub_one]
    simpa using hi
  simp [Nat.one_shiftLeft, h2, h3, Nat.two_pow_pos]

lemma set_state_writes (b : UsbRelayBoard) (idx : Nat) (st : UsbRelayState)
    (h : idx < b.relay_states.length) :
    (set_state b idx st).writes = [mkSetBuf st idx] := by
  unfold set_state
  rw [if_neg (by omega)]
  cases hwr : b.hid_device.writeResult with
  | none => simp [hwr]
  | some wb =>
    simp only [hwr]
    split <;> rfl

lemma set_state_board_none (b : UsbRelayBoard) (idx : Nat) (st : UsbRelayState)
    (h : idx < b.relay_states.length) (hwr : b.hid_device.writeResult = none) :
    (set_state b idx st).board = b ∧ (set_state b idx st).error = some .hidError := by
  unfold set_state
  rw [if_neg (by omega)]
  simp [hwr]

lemma set_state_board_short (b : UsbRelayBoard) (idx : Nat) (st : UsbRelayState)
    (wb : Nat) (h : idx < b.relay_states.length)
    (hwr : b.hid_device.writeResult = some wb) (hwb : wb ≠ 9) :
    (set_state b idx st).board = b ∧ (set_state b idx st).error = some .writeSize := by
  unfold set_state
  rw [if_neg (by omega)]
  have : wb ≠ (mkSetBuf st idx).length := by simp [mkSetBuf]; omega
  simp [hwr, this]

lemma set_state_board_ok (b : UsbRelayBoard) (idx : Nat) (st : UsbRelayState)
    (h : idx < b.relay_states.length) (hwr : b.hid_device.writeResult = some 9) :
    (set_state b idx st).board =
      { b with relay_states := b.relay_states.set idx st } ∧
    (set_state b idx st).error = none := by
  unfold set_state
  rw [if_neg (by omega)]
  have : (9 : Nat) = (mkSetBuf st idx).length := by simp [mkSetBuf]
  simp [hwr, ← this]

/-- C1: for every state byte `s` and relay count `n ≤ 8`, the board that
`find_relays` constructs from a device reporting state byte `s` and product
string `USBRelay<n>` has exactly `n` relay-state entries; entry `i` is `On`
iff bit `i` of `s` is set (bit 0 least significant); `s = 0` decodes to all
`Off` and `s = 2 ^ n - 1` to all `On` among the first `n` entries. -/
theorem C1_bitmap_decode (s n : Nat) (hs : s < 256) (hn : n ≤ 8) :
    find_relays [mkDevice n s] = .ok [mkBoard n s] ∧
    (mkBoard n s).relay_states.length = n ∧
    (∀ i, i < n → (((mkBoard n s).relay_states.getD i .Off = .On) ↔ s.testBit i = true)) ∧
    (s = 0 → (mkBoard n s).relay_states = List.replicate n .Off) ∧
    (s = 2 ^ n - 1 → (mkBoard n s).relay_states = List.replicate n .On) := by
  refine ⟨findRelays_mkDevice n s hn, decodeStates_length s n, ?_, ?_, ?_⟩
  · intro i hi
    exact decodeStates_getD s n i hi
  · intro hz
    subst hz
    exact decodeStates_zero n
  · intro ha
    subst ha
    exact decodeStates_all_on n

/-- C1 witness: concrete instance at `s = 5`, `n = 3`. -/
theorem C1_bitmap_decode_witness :
    find_relays [mkDevice 3 5] = .ok [mkBoard 3 5] :=
  (C1_bitmap_decode 5 3 (by decide) (by decide)).1

lemma set_state_length (b : UsbRelayBoard) (idx : Nat) (st : UsbRelayState) :
    (set_state b idx st).board.relay_states.length = b.relay_states.length := by
  unfold set_state
  by_cases h : idx ≥ b.relay_states.length
  · rw [if_pos h]
  · rw [if_neg h]
    cases hwr : b.hid_device.writeResult with
    | none => simp [hwr]
    | some wb =>
      simp only [hwr]
      split
      · rfl
      · simp [List.length_set]

/-- C2: for every board and in-range relay index, `set_state` hands the
transport exactly the 9-byte buffer with `buf[1] = 0xFF` (`On`) or `0xFD`
(`Off`), `buf[2] = relay_index + 1`, all remaining bytes zero; in
particular `On` at index 2 gives `buf[1] = 0xFF`, `buf[2] = 3`. -/
theorem C2_command_encoding (b : UsbRelayBoard) (idx : Nat) (st : UsbRelayState)
    (h : idx < b.relay_states.length) :
    (set_state b idx st).writes = [mkSetBuf st idx] ∧
    (mkSetBuf st idx).length = 9 ∧
    (mkSetBuf st idx).getD 1 0 = (if st = .On then 0xff else 0xfd) ∧
    (mkSetBuf st idx).getD 2 0 = idx + 1 ∧
    (∀ j, j < 9 → j ≠ 1 → j ≠ 2 → (mkSetBuf st idx).getD j 0 = 0) ∧
    (set_state (mkBoard 3 0) 2 .On).writes = [mkSetBuf .On 2] ∧
    (mkSetBuf .On 2).getD 1 0 = 0xff ∧
    (mkSetBuf .On 2).getD 2 0 = 3 ∧
    (∀ j, j < 9 → j ≠ 1 → j ≠ 2 → (mkSetBuf .On 2).getD j 0 = 0) := by
  have h2lt : 2 < (mkBoard 3 0).relay_states.length := by decide
  refine ⟨set_state_writes b idx st h, ?_, ?_, ?_, ?_,
    set_state_writes (mkBoard 3 0) 2 .On h2lt, ?_, ?_, ?_⟩
  · simp [mkSetBuf]
  · cases st <;> simp [mkSetBuf, UsbRelayCommand.toByte]
  · simp [mkSetBuf]
  · intro j h9 h1 h2
    interval_cases j <;> simp_all [mkSetBuf]
  · rfl
  · rfl
  · intro j h9 h1 h2
    interval_cases j <;> simp_all [mkSetBuf, UsbRelayCommand.toByte]

/-- C2 witness: concrete board, index 2, `On`. -/
theorem C2_command_encoding_witness :
    (set_state (mkBoard 3 0) 2 .On).writes = [mkSetBuf .On 2] :=
  (C2_command_encoding (mkBoard 3 0) 2 .On (by decide)).1

/-- C3: for every out-of-range index, `set_state` fails with the
index-out-of-range error carrying the offending index, the board's serial
number and the actual relay count; the board (hence `relay_states`) is left
unchanged and no write command is issued. -/
theorem C3_index_out_of_range (b : UsbRelayBoard) (idx : Nat) (st : UsbRelayState)
    (h : b.relay_states.length ≤ idx) :
    (set_state b idx st).error =
      some (.invalidRelayIndex idx b.serial_number b.relay_states.length) ∧
    (set_state b idx st).error.map RelayError.kind = some .indexOutOfRange ∧
    (set_state b idx st).board = b ∧
    (set_state b idx st).writes = [] := by
  unfold set_state
  rw [if_pos (by omega)]
  simp [RelayError.kind]

/-- C3 witness: index 5 on a 3-relay board. -/
theorem C3_index_out_of_range_witness :
    (set_state (mkBoard 3 0) 5 .Off).error =
      some (.invalidRelayIndex 5 (mkBoard 3 0).serial_number 3) :=
  (C3_index_out_of_range (mkBoard 3 0) 5 .Off (by decide)).1

/-- C4: for every in-range index, exactly one write attempt is recorded; if
the transport write errors the call fails (transport error) with
`relay_states` unchanged, and if it reports a byte count other than 9 the
call fails with the write-size error, of protocol kind, with `relay_states`
unchanged. -/
theorem C4_write_failure (b : UsbRelayBoard) (idx : Nat) (st : UsbRelayState)
    (h : idx < b.relay_states.length) :
    (set_state b idx st).writes.length = 1 ∧
    (b.hid_device.writeResult = none →
      (set_state b idx st).error = some .hidError ∧
      (set_state b idx st).board.relay_states = b.relay_states) ∧
    (∀ wb, b.hid_device.writeResult = some wb → wb ≠ 9 →
      (set_state b idx st).error = some .writeSize ∧
      RelayError.writeSize.kind = .protocol ∧
      (set_state b idx st).board.relay_states = b.relay_states) := by
  refine ⟨by rw [set_state_writes b idx st h]; rfl, ?_, ?_⟩
  · intro hwr
    obtain ⟨h1, h2⟩ := set_state_board_none b idx st h hwr
    exact ⟨h2, by rw [h1]⟩
  · intro wb hwr hwb
    obtain ⟨h1, h2⟩ := set_state_board_short b idx st wb h hwr hwb
    exact ⟨h2, rfl, by rw [h1]⟩

/-- C4 witness: a board reporting a 3-byte write fails with the write-size
error. -/
theorem C4_write_failure_witness :
    (set_state shortWriteBoard 0 .On).error = some .writeSize ∧
    RelayError.writeSize.kind = .protocol ∧
    (set_state shortWriteBoard 0 .On).board.relay_states =
      shortWriteBoard.relay_states :=
  (C4_write_failure shortWriteBoard 0 .On (by decide)).2.2 3 rfl (by decide)

/-- C5: on a successful write with an in-range index, `set_state` succeeds,
sets entry `relay_index` to the desired state, leaves every other entry
unchanged, never changes the length of `relay_states` (on any call, also
failing ones), and its outcome does not depend on the feature-report
channel (no read-back). -/
theorem C5_success_frame (b : UsbRelayBoard) (idx : Nat) (st : UsbRelayState)
    (h : idx < b.relay_states.length) (hwr : b.hid_device.writeResult = some 9) :
    (set_state b idx st).error = none ∧
    (set_state b idx st).board.relay_states = b.relay_states.set idx st ∧
    (set_state b idx st).board.relay_states.getD idx .Off = st ∧
    (∀ j, j ≠ idx → (set_state b idx st).board.relay_states.getD j .Off =
      b.relay_states.getD j .Off) ∧
    (∀ idx' st', (set_state b idx' st').board.relay_states.length =
      b.relay_states.length) ∧
    (∀ fr, (set_state (withFeature b fr) idx st).error = none ∧
      (set_state (withFeature b fr) idx st).board.relay_states =
        b.relay_states.set idx st ∧
      (set_state (withFeature b fr) idx st).writes =
        (set_state b idx st).writes) := by
  obtain ⟨hb, he⟩ := set_state_board_ok b idx st h hwr
  refine ⟨he, by rw [hb], ?_, ?_, fun idx' st' => set_state_length b idx' st', ?_⟩
  · rw [hb]
    show (b.relay_states.set idx st).getD idx .Off = st
    rw [List.getD_eq_getElem?_getD, List.getElem?_set_self h]
    rfl
  · intro j hj
    rw [hb]
    show (b.relay_states.set idx st).getD j .Off = b.relay_states.getD j .Off
    rw [List.getD_eq_getElem?_getD, List.getD_eq_getElem?_getD,
      List.getElem?_set_ne (fun hh => hj hh.symm)]
  · intro fr
    have hfr1 : (withFeature b fr).relay_states = b.relay_states := rfl
    have hfr2 : (withFeature b fr).hid_device.writeResult = some 9 := hwr
    obtain ⟨hb', he'⟩ := set_state_board_ok (withFeature b fr) idx st
      (by rw [hfr1]; exact h) hfr2
    refine ⟨he', by rw [hb']; rfl, ?_⟩
    rw [set_state_writes (withFeature b fr) idx st (by rw [hfr1]; exact h),
      set_state_writes b idx st h]

/-- C5 witness: concrete board, index 1, `On`. -/
theorem C5_success_frame_witness :
    (set_state (mkBoard 3 0) 1 .On).error = none ∧
    (set_state (mkBoard 3 0) 1 .On).board.relay_states =
      (mkBoard 3 0).relay_states.set 1 .On :=
  ⟨(C5_success_frame (mkBoard 3 0) 1 .On (by decide) rfl).1,
   (C5_success_frame (mkBoard 3 0) 1 .On (by decide) rfl).2.1⟩

lemma processDevice_ok_feature (d : DeviceInfo) (b : UsbRelayBoard)
    (hok : processDevice d = .ok b) (dev : HidDevice)
    (hopen : d.openResult = some dev) :
    ∃ r, read_features dev = .ok r := by
  unfold processDevice at hok
  split at hok
  · exact absurd hok (by simp)
  · split at hok
    · split at hok
      · exact absurd hok (by simp)
      · split at hok
        · exact absurd hok (by simp)
        · split at hok
          · exact absurd hok (by simp)
          · split at hok
            · exact absurd hok (by simp)
            · rename_i hid hdopen xres sn states hrf
              rw [hopen] at hdopen
              obtain rfl := Option.some.inj hdopen
              exact ⟨(sn, states), hrf⟩
    · exact absurd hok (by simp)

lemma processDevice_count_le (d : DeviceInfo) (b : UsbRelayBoard)
    (hok : processDevice d = .ok b) : b.relay_states.length ≤ 8 := by
  unfold processDevice at hok
  split at hok
  · exact absurd hok (by simp)
  · split at hok
    · split at hok
      · exact absurd hok (by simp)
      · split at hok
        · exact absurd hok (by simp)
        · split at hok
          · exact absurd hok (by simp)
          · split at hok
            · exact absurd hok (by simp)
            · obtain rfl := Except.ok.inj hok
              simp [decodeStates_length]
              omega
    · exact absurd hok (by simp)

lemma collectRelays_bound (ds : List DeviceInfo) (bs : List UsbRelayBoard)
    (h : collectRelays ds = .ok bs) :
    ∀ b ∈ bs, b.relay_states.length ≤ 8 := by
  induction ds generalizing bs with
  | nil =>
    simp only [collectRelays] at h
    obtain rfl := Except.ok.inj h
    simp
  | cons d ds ih =>
    simp only [collectRelays] at h
    split at h
    · exact absurd h (by simp)
    · rename_i b0 hpd
      split at h
      · exact absurd h (by simp)
      · rename_i bs0 hcr
        obtain rfl := Except.ok.inj h
        intro b hb
        rcases List.mem_cons.mp hb with rfl | hb0
        · exact processDevice_count_le d b hpd
        · exact ih bs0 hcr b hb0

lemma collectRelays_first_error (l1 : List DeviceInfo) (d : DeviceInfo)
    (l2 : List DeviceInfo) (e : RelayError)
    (hgood : ∀ x ∈ l1, ∃ b, processDevice x = .ok b)
    (hbad : processDevice d = .error e) :
    collectRelays (l1 ++ d :: l2) = .error e := by
  induction l1 with
  | nil => simp [collectRelays, hbad]
  | cons x l ih =>
    obtain ⟨b, hb⟩ := hgood x (by simp)
    have ih' := ih (fun y hy => hgood y (by simp [hy]))
    simp [collectRelays, hb, ih']

lemma find_relays_mkDeviceP (p : List Char) :
    find_relays [mkDeviceP p] = collectRelays [mkDeviceP p] := by
  simp [find_relays, mkDeviceP, USB_RELAY_VID, USB_RELAY_PID]

/-- C6: `read_features` fails with the protocol-kind error whenever the
reported feature-report size differs from 9 (and no board is constructed
from such a device); on a 9-byte response it returns the serial number
decoded from bytes `[0..5)` as UTF-8 text, failing with the encoding-kind
error when those bytes are not valid UTF-8, and returns byte `[7]` as the
state bitmap. -/
theorem C6_read_features (dev : HidDevice) (rb : Nat) (buf : List Nat)
    (hlen : buf.length = 9) (hfr : dev.featureReport = some (rb, buf)) :
    (rb ≠ 9 → errKindOf (read_features dev) = some .protocol ∧
      ∀ d b, d.openResult = some dev → processDevice d ≠ .ok b) ∧
    (rb = 9 → utf8Decode (buf.take SERIAL_NUMBER_SIZE) = none →
      errKindOf (read_features dev) = some .encoding) ∧
    (rb = 9 → ∀ sn, utf8Decode (buf.take SERIAL_NUMBER_SIZE) = some sn →
      read_features dev = .ok (sn, buf.getD 7 0)) := by
  refine ⟨?_, ?_, ?_⟩
  · intro h9
    refine ⟨by simp [read_features, hfr, h9, errKindOf, RelayError.kind], ?_⟩
    intro d b hopen hok
    obtain ⟨r, hr⟩ := processDevice_ok_feature d b hok dev hopen
    simp [read_features, hfr, h9] at hr
  · intro h9 hdec
    subst h9
    simp [read_features, hfr, hdec, errKindOf, RelayError.kind]
  · intro h9 sn hdec
    subst h9
    simp [read_features, hfr, hdec]

/-- C6 witness: a device reporting a 3-byte feature report. -/
theorem C6_read_features_witness :
    errKindOf (read_features
      { featureReport := some (3, [49, 50, 51, 52, 53, 0, 0, 0, 0]),
        writeResult := none }) = some .protocol :=
  ((C6_read_features
      { featureReport := some (3, [49, 50, 51, 52, 53, 0, 0, 0, 0]),
        writeResult := none }
      3 [49, 50, 51, 52, 53, 0, 0, 0, 0] (by decide) rfl).1 (by decide)).1

/-- C7 counterexample: on the product string `"USBRelayUSBRelay4"` the
suffix after the literal prefix `"USBRelay"` is `"USBRelay4"`, which is not
numeric, so the claim as stated predicts a parse failure — but discovery
succeeds and yields a 4-relay board, because `trim_start_matches` removes
the prefix repeatedly. -/
theorem C7_counterexample :
    usbRelayTag.isPrefixOf dupProduct = true ∧
    parseUsize (dupProduct.drop usbRelayTag.length) = none ∧
    find_relays [mkDeviceP dupProduct] = .ok [mkBoard 4 5] ∧
    (mkBoard 4 5).relay_states.length = 4 :=
  ⟨rfl, rfl, rfl, rfl⟩

/-- C7 (amended): during discovery, a matching device whose product string
lacks the `"USBRelay"` prefix fails with the unsupported-product kind;
otherwise the string left after repeatedly stripping the leading
`"USBRelay"` marker (`str::trim_start_matches` semantics) is parsed as a
decimal relay count, failing with the parse kind when non-numeric and with
the unsupported-product kind when the parsed count exceeds 8; the product
string `"USBRelay4"` yields a board with exactly 4 relay-state entries. -/
theorem C7_product_validation (p : List Char) :
    (usbRelayTag.isPrefixOf p = false →
      errKindOf (find_relays [mkDeviceP p]) = some .unsupportedProduct) ∧
    (usbRelayTag.isPrefixOf p = true →
      parseUsize (trimStartMatches usbRelayTag p) = none →
      errKindOf (find_relays [mkDeviceP p]) = some .parse) ∧
    (∀ n, usbRelayTag.isPrefixOf p = true →
      parseUsize (trimStartMatches usbRelayTag p) = some n → n > 8 →
      errKindOf (find_relays [mkDeviceP p]) = some .unsupportedProduct) ∧
    (find_relays [mkDeviceP (usbRelayTag ++ ['4'])]).map
      (fun bs => bs.map (fun b => b.relay_states.length)) = .ok [4] := by
  refine ⟨?_, ?_, ?_, by rfl⟩
  · intro hpre
    rw [find_relays_mkDeviceP]
    simp [collectRelays, processDevice, mkDeviceP, hpre, errKindOf, RelayError.kind]
  · intro hpre hparse
    rw [find_relays_mkDeviceP]
    simp [collectRelays, processDevice, mkDeviceP, hpre, hparse, errKindOf,
      RelayError.kind]
  · intro n hpre hparse hn
    rw [find_relays_mkDeviceP]
    simp [collectRelays, processDevice, mkDeviceP, hpre, hparse, hn, errKindOf,
      RelayError.kind]

/-- C7 witness: `"USBRelayX"` fails with the parse kind, `"USBRelay9"` with
the unsupported-product kind. -/
theorem C7_product_validation_witness :
    errKindOf (find_relays
      [mkDeviceP ['U', 'S', 'B', 'R', 'e', 'l', 'a', 'y', 'X']]) = some .parse ∧
    errKindOf (find_relays
      [mkDeviceP ['U', 'S', 'B', 'R', 'e', 'l', 'a', 'y', '9']]) =
        some .unsupportedProduct :=
  ⟨(C7_product_validation ['U', 'S', 'B', 'R', 'e', 'l', 'a', 'y', 'X']).2.1
      (by decide) (by decide),
   (C7_product_validation ['U', 'S', 'B', 'R', 'e', 'l', 'a', 'y', '9']).2.2.1 9
      (by decide) (by decide) (by decide)⟩

/-- C8: selecting a board by serial number filters on exact equality; zero
matches fail with the not-found kind, exactly one match returns the unique
matching board, two or more matches fail with the ambiguous-identity kind. -/
theorem C8_serial_selection (relays : List UsbRelayBoard) (target : List Nat) :
    (relays.filter (fun r => r.serial_number == target) = [] →
      selectRelay relays target = .error .noSuchRelay ∧
      RelayError.noSuchRelay.kind = .notFound) ∧
    (∀ b, relays.filter (fun r => r.serial_number == target) = [b] →
      selectRelay relays target = .ok b) ∧
    (2 ≤ (relays.filter (fun r => r.serial_number == target)).length →
      selectRelay relays target = .error .duplicateSerial ∧
      RelayError.duplicateSerial.kind = .ambiguousIdentity) := by
  refine ⟨?_, ?_, ?_⟩
  · intro hm
    unfold selectRelay
    rw [hm]
    exact ⟨rfl, rfl⟩
  · intro b hm
    unfold selectRelay
    rw [hm]
    rfl
  · intro hm
    have h1 : (relays.filter (fun r => r.serial_number == target)).isEmpty = false := by
      cases hc : relays.filter (fun r => r.serial_number == target) with
      | nil => rw [hc] at hm; simp at hm
      | cons a l => rfl
    have h2 : (relays.filter (fun r => r.serial_number == target)).length > 1 := by
      omega
    exact ⟨by simp [selectRelay, h1, h2], rfl⟩

/-- C8 witness: a unique match is returned. -/
theorem C8_serial_selection_witness :
    selectRelay [mkBoard 2 0] [49, 50, 51, 52, 53] = .ok (mkBoard 2 0) :=
  (C8_serial_selection [mkBoard 2 0] [49, 50, 51, 52, 53]).2.1 (mkBoard 2 0)
    (by decide)

/-- C9: when some filtered device fails processing, discovery returns the
first such error and no boards at all: earlier devices may have processed
fine, yet the whole call aborts instead of returning the good boards. -/
theorem C9_abort_on_first_error (devices l1 l2 : List DeviceInfo)
    (d : DeviceInfo) (e : RelayError)
    (hsplit : devices.filter (fun x => x.vendor_id == USB_RELAY_VID &&
      x.product_id == USB_RELAY_PID) = l1 ++ d :: l2)
    (hgood : ∀ x ∈ l1, ∃ b, processDevice x = .ok b)
    (hbad : processDevice d = .error e) :
    find_relays devices = .error e ∧ ∀ bs, find_relays devices ≠ .ok bs := by
  have h : find_relays devices = .error e := by
    unfold find_relays
    rw [hsplit]
    exact collectRelays_first_error l1 d l2 e hgood hbad
  exact ⟨h, fun bs hok => by rw [h] at hok; exact Except.noConfusion hok⟩

/-- C9 witness: a good 2-relay device followed by a device with product
string `"Foo"`: the whole discovery aborts with the second device's error. -/
theorem C9_abort_on_first_error_witness :
    find_relays [mkDevice 2 5, mkDeviceP ['F', 'o', 'o']] =
      .error (.productUnsupported ['F', 'o', 'o']) :=
  (C9_abort_on_first_error [mkDevice 2 5, mkDeviceP ['F', 'o', 'o']]
    [mkDevice 2 5] [] (mkDeviceP ['F', 'o', 'o'])
    (.productUnsupported ['F', 'o', 'o'])
    (by decide)
    (fun x hx => ⟨mkBoard 2 5, by rw [List.mem_singleton.mp hx]; rfl⟩)
    rfl).1

/-- C10: every board discovery constructs has at most 8 relays, so an
in-range `set_state` index is at most 7 and the 1-based wire address
`relay_index + 1` is at most 8 — far inside the `u8` range, so the
addition cannot wrap or panic on the error-free path. -/
theorem C10_wire_index_in_range (devices : List DeviceInfo)
    (bs : List UsbRelayBoard) (h : find_relays devices = .ok bs)
    (b : UsbRelayBoard) (hb : b ∈ bs) (idx : Nat) (st : UsbRelayState)
    (hidx : idx < b.relay_states.length) :
    idx ≤ 7 ∧ idx + 1 ≤ 8 ∧ (idx + 1) % 256 = idx + 1 ∧
    (mkSetBuf st idx).getD 2 0 = idx + 1 ∧
    (set_state b idx st).writes = [mkSetBuf st idx] := by
  have hle : b.relay_states.length ≤ 8 :=
    collectRelays_bound _ bs (by simpa [find_relays] using h) b hb
  exact ⟨by omega, by omega, Nat.mod_eq_of_lt (by omega), by simp [mkSetBuf],
    set_state_writes b idx st hidx⟩

/-- C10 witness: index 2 on a discovered 3-relay board. -/
theorem C10_wire_index_in_range_witness :
    (mkSetBuf .On 2).getD 2 0 = 2 + 1 :=
  (C10_wire_index_in_range [mkDevice 3 5] [mkBoard 3 5] rfl (mkBoard 3 5)
    (List.mem_singleton.mpr rfl) 2 .On (by decide)).2.2.2.1
